import Mathlib

/-!
Shallow embedding of `src/samples/example1.cpp` (the bad-style demo file).

The file contains a `Config` struct, a buffer-owning class `data_manager`,
a worker routine `WorkerThread` incrementing a global counter under a global
mutex, a pure-ish function `calculateTotal`, and a `main` wiring them together.

Conventions of the embedding:
- C++ `int` values are modelled as `Int` (the demo never approaches the
  32-bit range, and signed overflow is undefined behaviour in the source);
- console output is modelled as lists of emitted values / events;
- the two concurrent workers are modelled by an explicit interleaving
  schedule: each schedule entry names the worker that next acquires the
  global mutex and runs one loop body (the body is atomic in the model
  because the whole body of the source loop runs under `lock_guard`);
- the buffer heap allocation is modelled by explicit allocation /
  release events, since the class has no destructor.
-/

namespace Example1

/-- Loop bound from the macro `#define maxCount 10`. -/
def maxCount : Nat := 10

/-- The struct `Config` with fields `Port`, `HostName`, `useSSL`
(line 24-29 of `example1.cpp`). -/
structure Config where
  Port : Int
  HostName : String
  useSSL : Bool
deriving DecidableEq, Repr

/-- The configuration value built in `main` (lines 96-99):
`Port = 8080`, `HostName = "localhost"`, `useSSL = true`. -/
def mainCfg : Config :=
  { Port := 8080, HostName := "localhost", useSSL := true }

/-- The class `data_manager` (lines 31-60): it owns `rawBuffer`
(modelled as the list of stored ints) and records `size`. -/
structure data_manager where
  rawBuffer : List Int
  size : Nat
deriving DecidableEq, Repr

/-- The constructor `data_manager::data_manager(int sz)` (lines 37-45):
stores `size = sz` and fills `rawBuffer[i] = i * 2` for `i = 0 .. sz-1`. -/
def data_manager.mk_ctor (sz : Nat) : data_manager :=
  { rawBuffer := (List.range sz).map (fun (i : Nat) => (i : Int) * 2), size := sz }

/-- The method `data_manager::PrintData` (lines 47-53): reads
`rawBuffer[i]` for `i = 0 .. size-1` and prints each value; the embedding
returns the list of printed values, reading out-of-range cells as a junk
default (the source would have undefined behaviour there). -/
def data_manager.PrintData (dm : data_manager) : List Int :=
  (List.range dm.size).map (fun i => dm.rawBuffer.getD i 0)

/-- The function `calculateTotal(int A, int B, int C, int D)`
(lines 82-90): computes `Result = A + B + C + D`, prints
`"Large total: Result"` when `Result > 100`, and returns `Result`.
The embedding returns the pair of the return value and the optional
reported value (`none` when no report line is printed). -/
def calculateTotal (A B C D : Int) : Int × Option Int :=
  let Result := A + B + C + D
  (Result, if Result > 100 then some Result else none)

/-- Helper: `PrintData` applied to a freshly constructed `data_manager`
yields exactly the initialisation values, in order. -/
theorem printData_mk_ctor (sz : Nat) :
    (data_manager.mk_ctor sz).PrintData =
      (List.range sz).map (fun (i : Nat) => (i : Int) * 2) := by
  unfold data_manager.PrintData data_manager.mk_ctor
  refine List.map_congr_left (fun i hi => ?_)
  rw [List.mem_range] at hi
  simp [List.getD, List.getElem?_map, List.getElem?_range, hi]

/-- C1: for every `size > 0`, constructing a `data_manager` with that size
and enumerating its contents via `PrintData` yields exactly `size` elements,
and the element at index `i` equals `i * 2` for every `i < size`. -/
theorem C1_create_enumerate (sz : Nat) (h : 0 < sz) :
    ((data_manager.mk_ctor sz).PrintData.length = sz) ∧
    (∀ i, i < sz → (data_manager.mk_ctor sz).PrintData.getD i 0 = (i : Int) * 2) := by
  constructor
  · rw [printData_mk_ctor]; simp
  · intro i hi
    rw [printData_mk_ctor]
    simp [List.getD, List.getElem?_map, List.getElem?_range, hi]

/-- Witness for C1 at the concrete size 5. -/
theorem C1_create_enumerate_witness :
    0 < 5 ∧
    (((data_manager.mk_ctor 5).PrintData.length = 5) ∧
     (∀ i, i < 5 → (data_manager.mk_ctor 5).PrintData.getD i 0 = (i : Int) * 2)) :=
  ⟨by decide, C1_create_enumerate 5 (by decide)⟩

/-- C3: `calculateTotal` returns the sum of its four arguments for all
inputs — in particular 10 on (1,2,3,4) and 120 on (30,30,30,30) — and the
return value is the sum whether or not the large-total report was emitted. -/
theorem C3_total_returns_sum :
    (∀ A B C D : Int, (calculateTotal A B C D).1 = A + B + C + D) ∧
    (calculateTotal 1 2 3 4).1 = 10 ∧
    (calculateTotal 30 30 30 30).1 = 120 := by
  refine ⟨fun A B C D => rfl, by decide, by decide⟩

/-- C4: `calculateTotal` emits the large-total report exactly when the sum
exceeds 100, and the reported value is the sum itself; on (1,2,3,4)
(sum 10) no report is emitted, on (30,30,30,30) (sum 120) the report
carries 120. -/
theorem C4_large_total_report :
    (∀ A B C D : Int,
      ((calculateTotal A B C D).2 = some (A + B + C + D) ↔ A + B + C + D > 100) ∧
      ((calculateTotal A B C D).2 = none ↔ A + B + C + D ≤ 100)) ∧
    (calculateTotal 1 2 3 4).2 = none ∧
    (calculateTotal 30 30 30 30).2 = some 120 := by
  refine ⟨fun A B C D => ?_, by decide, by decide⟩
  by_cases hc : A + B + C + D > 100 <;> simp [calculateTotal, hc] <;> omega

/-! The worker routine `WorkerThread(int ID, data_manager &dm, Config cfg)`
(lines 64-80). Its observable behaviour per loop iteration is modelled as a
list of events: acquiring the global mutex (`lock_guard` construction,
line 68), the status line printed under the lock (lines 70-74), the
conditional high-load warning (lines 75-78), and the release of the mutex
when the `lock_guard` goes out of scope at the end of the iteration body.
The shared counter `Global_count` is threaded explicitly. -/

/-- An observable event of the worker loop body. -/
inductive Event where
  | acquire : Event
  | status : Nat → Nat → String → Int → Bool → Event
  | warning : Event
  | release : Event
deriving DecidableEq, Repr

/-- One iteration of the loop body of `WorkerThread` (lines 66-79), run
against counter value `c`: acquire the mutex, increment `Global_count`,
print the status line with the worker id, the iteration index and the
`cfg` fields, print the high-load warning when the incremented counter
exceeds 50, then release the mutex at the end of the scope. Returns the
emitted events and the new counter value. -/
def iterBody (ID i : Nat) (cfg : Config) (c : Int) : List Event × Int :=
  let c' := c + 1
  ([Event.acquire,
    Event.status ID i cfg.HostName cfg.Port cfg.useSSL] ++
   (if c' > 50 then [Event.warning] else []) ++
   [Event.release], c')

/-- Folding step of the worker loop: append the iteration's events and
carry the counter. -/
def loopStep (ID : Nat) (cfg : Config) (a : List Event × Int) (i : Nat) :
    List Event × Int :=
  (a.1 ++ (iterBody ID i cfg a.2).1, (iterBody ID i cfg a.2).2)

/-- The function `WorkerThread` (lines 64-80): `maxCount` iterations of the
loop body, starting from counter value `c0`. -/
def WorkerThread (ID : Nat) (cfg : Config) (c0 : Int) : List Event × Int :=
  (List.range maxCount).foldl (loopStep ID cfg) ([], c0)

/-- Test for a status-line event. -/
def isStatus : Event → Bool
  | Event.status _ _ _ _ _ => true
  | _ => false

/-- Test for a mutex-acquisition event. -/
def isAcquire : Event → Bool
  | Event.acquire => true
  | _ => false

/-- Helper: the status lines of one iteration body are exactly the single
line carrying the worker id, iteration index and configuration fields. -/
theorem iterBody_filter_status (ID i : Nat) (cfg : Config) (c : Int) :
    (iterBody ID i cfg c).1.filter isStatus
      = [Event.status ID i cfg.HostName cfg.Port cfg.useSSL] := by
  by_cases h : c + 1 > 50 <;> simp [iterBody, h, isStatus]

/-- Helper: one iteration body acquires the mutex exactly once. -/
theorem iterBody_filter_acquire (ID i : Nat) (cfg : Config) (c : Int) :
    (iterBody ID i cfg c).1.filter isAcquire = [Event.acquire] := by
  by_cases h : c + 1 > 50 <;> simp [iterBody, h, isAcquire]

/-- Helper: behaviour of the worker loop fold over an arbitrary index list:
status lines accumulate one per index in order, acquisitions accumulate one
per index, and the counter grows by the number of indices. -/
theorem foldl_loopStep_spec (ID : Nat) (cfg : Config) (idxs : List Nat)
    (evs : List Event) (c : Int) :
    ((idxs.foldl (loopStep ID cfg) (evs, c)).1.filter isStatus
        = evs.filter isStatus
          ++ idxs.map (fun i => Event.status ID i cfg.HostName cfg.Port cfg.useSSL)) ∧
    ((idxs.foldl (loopStep ID cfg) (evs, c)).1.filter isAcquire
        = evs.filter isAcquire ++ idxs.map (fun _ => Event.acquire)) ∧
    ((idxs.foldl (loopStep ID cfg) (evs, c)).2 = c + idxs.length) := by
  induction idxs generalizing evs c with
  | nil => simp
  | cons i rest ih =>
    have h := ih (loopStep ID cfg (evs, c) i).1 (loopStep ID cfg (evs, c) i).2
    refine ⟨?_, ?_, ?_⟩
    · rw [List.foldl_cons, h.1]
      simp [loopStep, List.filter_append, iterBody_filter_status]
    · rw [List.foldl_cons, h.2.1]
      simp [loopStep, List.filter_append, iterBody_filter_acquire]
    · rw [List.foldl_cons, h.2.2]
      simp [loopStep, iterBody]
      omega

/-- C5: every invocation of `WorkerThread` performs exactly `maxCount = 10`
iterations: it emits exactly one status line per iteration index
`i = 0.. 9` carrying the worker id, the iteration index, and the host,
port and SSL flag of its configuration snapshot, acquires the mutex once
per iteration, and each iteration body increments the counter by exactly 1
(so the whole invocation adds `maxCount` to the counter). -/
theorem C5_worker_iterations (ID : Nat) (cfg : Config) (c0 : Int) :
    ((WorkerThread ID cfg c0).1.filter isStatus
        = (List.range maxCount).map
            (fun i => Event.status ID i cfg.HostName cfg.Port cfg.useSSL)) ∧
    ((WorkerThread ID cfg c0).1.filter isStatus).length = maxCount ∧
    ((WorkerThread ID cfg c0).1.filter isAcquire).length = maxCount ∧
    ((WorkerThread ID cfg c0).2 = c0 + maxCount) ∧
    (∀ i c, (iterBody ID i cfg c).2 = c + 1) := by
  have h := foldl_loopStep_spec ID cfg (List.range maxCount) [] c0
  refine ⟨?_, ?_, ?_, ?_, fun i c => rfl⟩
  · rw [WorkerThread] at *
    simpa using h.1
  · rw [WorkerThread] at *
    rw [h.1]
    simp
  · rw [WorkerThread] at *
    rw [h.2.1]
    simp
  · rw [WorkerThread] at *
    rw [h.2.2]
    simp

/-- C6: an iteration of the worker loop emits the high-load warning exactly
when the counter value immediately after that iteration's increment
exceeds 50. -/
theorem C6_warning_iff_over_fifty (ID i : Nat) (cfg : Config) (c : Int) :
    Event.warning ∈ (iterBody ID i cfg c).1 ↔ c + 1 > 50 := by
  by_cases h : c + 1 > 50 <;> simp [iterBody, h]

/-- Lock-depth check: scans an event list keeping the mutex depth and
requires every warning event to occur at positive depth, i.e. while the
lock is held. -/
def underLockFrom : Nat → List Event → Bool
  | _, [] => true
  | d, Event.acquire :: rest => underLockFrom (d + 1) rest
  | d, Event.release :: rest => underLockFrom (d - 1) rest
  | d, Event.warning :: rest => decide (0 < d) && underLockFrom d rest
  | d, Event.status _ _ _ _ _ :: rest => underLockFrom d rest

/-- Predicate: every warning in the trace is emitted while the lock is
held (depth positive at the warning), starting from depth 0. -/
def warningsUnderLock (l : List Event) : Bool := underLockFrom 0 l

/-- C9: in the implemented loop body the high-load warning (when emitted)
is printed while the worker still holds the mutex — the warning event lies
inside the acquire/release region of its iteration, before the scoped
release, never after it. -/
theorem C9_warning_emitted_under_lock (ID i : Nat) (cfg : Config) (c : Int) :
    warningsUnderLock (iterBody ID i cfg c).1 = true := by
  by_cases h : c + 1 > 50 <;>
    simp [iterBody, h, warningsUnderLock, underLockFrom]

/-! Interleaved execution of the two worker threads spawned in `main`
(lines 117-121). Because every counter increment of the loop body runs
under the single global mutex `globalMutex`, one loop-body execution is an
atomic transition of the shared state; an execution of the two threads is
then determined by a schedule, a list of Booleans naming which worker the
scheduler runs next (`true` = worker `t1`, `false` = worker `t2`). A
schedule entry for a worker that already finished its `maxCount`
iterations changes nothing. -/

/-- Shared state of the two-worker program: the counter `Global_count`
(initially 0, line 14) and the remaining iterations of each worker. -/
structure WState where
  Global_count : Int
  rem1 : Nat
  rem2 : Nat
deriving DecidableEq, Repr

/-- One scheduling step: the named worker, if it still has iterations
left, runs one loop body under the mutex, incrementing `Global_count`
by 1 and consuming one of its iterations. -/
def wstep (s : WState) (w : Bool) : WState :=
  if w then
    if 0 < s.rem1 then
      { s with Global_count := s.Global_count + 1, rem1 := s.rem1 - 1 }
    else s
  else
    if 0 < s.rem2 then
      { s with Global_count := s.Global_count + 1, rem2 := s.rem2 - 1 }
    else s

/-- The state at the point of `main` where the two threads are spawned:
counter 0, each worker with `maxCount` iterations to go. -/
def initState : WState :=
  { Global_count := 0, rem1 := maxCount, rem2 := maxCount }

/-- Run a whole schedule from a state. -/
def runSched (sched : List Bool) (s : WState) : WState :=
  sched.foldl wstep s

/-- Helper: running a concatenated schedule runs the pieces in turn. -/
theorem runSched_append (xs ys : List Bool) (s : WState) :
    runSched (xs ++ ys) s = runSched ys (runSched xs s) := by
  simp [runSched, List.foldl_append]

/-- Helper: one scheduling step conserves counter-plus-remaining-work. -/
theorem wstep_conserved (s : WState) (w : Bool) :
    (wstep s w).Global_count + (wstep s w).rem1 + (wstep s w).rem2
      = s.Global_count + s.rem1 + s.rem2 := by
  unfold wstep
  split_ifs <;> simp <;> omega

/-- Helper: any schedule conserves counter-plus-remaining-work. -/
theorem runSched_conserved (sched : List Bool) (s : WState) :
    (runSched sched s).Global_count + (runSched sched s).rem1
        + (runSched sched s).rem2
      = s.Global_count + s.rem1 + s.rem2 := by
  induction sched generalizing s with
  | nil => rfl
  | cons w rest ih =>
    rw [runSched, List.foldl_cons]
    calc (runSched rest (wstep s w)).Global_count + (runSched rest (wstep s w)).rem1
          + (runSched rest (wstep s w)).rem2
        = (wstep s w).Global_count + (wstep s w).rem1 + (wstep s w).rem2 := ih (wstep s w)
      _ = s.Global_count + s.rem1 + s.rem2 := wstep_conserved s w

/-- Helper: one scheduling step never decreases the counter. -/
theorem wstep_count_mono (s : WState) (w : Bool) :
    s.Global_count ≤ (wstep s w).Global_count := by
  unfold wstep
  split_ifs <;> simp <;> omega

/-- Helper: running a schedule never decreases the counter. -/
theorem runSched_count_mono (sched : List Bool) (s : WState) :
    s.Global_count ≤ (runSched sched s).Global_count := by
  induction sched generalizing s with
  | nil => exact le_refl _
  | cons w rest ih =>
    rw [runSched, List.foldl_cons]
    exact le_trans (wstep_count_mono s w) (ih (wstep s w))

/-- Helper: remaining-iteration counts never increase under a schedule. -/
theorem runSched_rem_le (sched : List Bool) (s : WState) :
    (runSched sched s).rem1 ≤ s.rem1 ∧ (runSched sched s).rem2 ≤ s.rem2 := by
  induction sched generalizing s with
  | nil => exact ⟨le_refl _, le_refl _⟩
  | cons w rest ih =>
    rw [runSched, List.foldl_cons]
    have h := ih (wstep s w)
    have h1 : (wstep s w).rem1 ≤ s.rem1 := by
      unfold wstep
      split_ifs <;> simp <;> omega
    have h2 : (wstep s w).rem2 ≤ s.rem2 := by
      unfold wstep
      split_ifs <;> simp <;> omega
    exact ⟨le_trans h.1 h1, le_trans h.2 h2⟩

/-- C2: for any interleaving of the two workers (any schedule) under which
both workers have completed their `maxCount = 10` iterations, the final
value of `Global_count` starting from the fresh counter 0 is exactly 20. -/
theorem C2_two_workers_final_count (sched : List Bool)
    (h1 : (runSched sched initState).rem1 = 0)
    (h2 : (runSched sched initState).rem2 = 0) :
    (runSched sched initState).Global_count = 20 := by
  have hc := runSched_conserved sched initState
  rw [h1, h2] at hc
  simpa [initState, maxCount] using hc

/-- Witness for C2 on a concrete schedule: worker 1 runs its 10 iterations,
then worker 2 runs its 10 iterations. -/
theorem C2_two_workers_final_count_witness :
    ((runSched (List.replicate 10 true ++ List.replicate 10 false) initState).rem1 = 0 ∧
     (runSched (List.replicate 10 true ++ List.replicate 10 false) initState).rem2 = 0) ∧
    (runSched (List.replicate 10 true ++ List.replicate 10 false) initState).Global_count = 20 :=
  ⟨⟨by decide, by decide⟩,
    C2_two_workers_final_count (List.replicate 10 true ++ List.replicate 10 false)
      (by decide) (by decide)⟩

/-- C10: starting from the fresh state (counter 0, no iterations done), at
every point of any interleaving the counter equals the total number of
loop iterations completed so far by the two workers, and extending the
schedule never decreases the counter. -/
theorem C10_counter_counts_iterations (sched more : List Bool) :
    ((runSched sched initState).Global_count
        = ((maxCount - (runSched sched initState).rem1)
            + (maxCount - (runSched sched initState).rem2) : Nat)) ∧
    (runSched sched initState).Global_count
      ≤ (runSched (sched ++ more) initState).Global_count := by
  constructor
  · have hc := runSched_conserved sched initState
    have hr := runSched_rem_le sched initState
    have h0 : initState.Global_count = 0 := rfl
    have hr1 : initState.rem1 = maxCount := rfl
    have hr2 : initState.rem2 = maxCount := rfl
    rw [h0, hr1, hr2] at hc
    rw [hr1, hr2] at hr
    omega
  · rw [runSched_append]
    exact runSched_count_mono more (runSched sched initState)

/-! Resource accounting for the buffer of `data_manager`. The constructor
performs one heap allocation (`rawBuffer = new int[sz]`, line 40); the
class declares no destructor (line 59: "no destructor -> memory leak")
and `main` omits `delete[] dm.rawBuffer` (line 125: "forgot"), so
destroying an instance releases nothing. -/

/-- A heap action on the owned buffer. -/
inductive RAction where
  | alloc : RAction
  | free : RAction
deriving DecidableEq, Repr

/-- Heap actions performed by constructing one `data_manager` (line 40). -/
def ctorActions : List RAction := [RAction.alloc]

/-- Heap actions performed by destroying one `data_manager`: none, since
the class has no destructor (line 59) and `main` never calls `delete[]`
(line 125). -/
def dtorActions : List RAction := []

/-- Heap actions over the full lifetime of one instance. -/
def instanceLifecycle : List RAction := ctorActions ++ dtorActions

/-- Heap actions of constructing and destroying `n` instances in
sequence. -/
def runInstances (n : Nat) : List RAction :=
  (List.range n).foldl (fun acc _ => acc ++ instanceLifecycle) []

/-- Helper: `n` construct-destroy cycles perform `n` allocations and zero
releases. -/
theorem runInstances_counts (n : Nat) :
    (runInstances n).count RAction.alloc = n ∧
    (runInstances n).count RAction.free = 0 := by
  induction n with
  | zero => exact ⟨rfl, rfl⟩
  | succ n ih =>
    rw [runInstances, List.range_succ, List.foldl_append]
    rw [runInstances] at ih
    simp only [List.foldl_cons, List.foldl_nil, List.count_append]
    rw [ih.1, ih.2]
    simp [instanceLifecycle, ctorActions, dtorActions]

/-- C7: the code never releases the buffer storage: over one instance's
lifetime zero releases happen (not the one release per instance the
contract requires), and constructing and destroying 1000 instances in
sequence performs 1000 allocations and zero releases — every buffer is
leaked. -/
theorem C7_buffer_storage_never_released :
    instanceLifecycle.count RAction.alloc = 1 ∧
    instanceLifecycle.count RAction.free = 0 ∧
    ¬ instanceLifecycle.count RAction.free = 1 ∧
    (runInstances 1000).count RAction.alloc = 1000 ∧
    (runInstances 1000).count RAction.free = 0 :=
  ⟨by decide, by decide, by decide,
    (runInstances_counts 1000).1, (runInstances_counts 1000).2⟩

/-! By-value configuration copies. `WorkerThread` takes its `Config cfg`
parameter by value (line 64) and `std::thread t1(WorkerThread, 1,
std::ref(dm), cfg)` copies `cfg` again into the thread (lines 117-118),
so each worker operates on an independent copy of `main`'s `cfg`. -/

/-- The three live configuration values after the two spawns in `main`:
the original in `main` and each worker's private copy. -/
structure ConfigOwners where
  mainCopy : Config
  worker1Copy : Config
  worker2Copy : Config
deriving DecidableEq, Repr

/-- Spawning the two worker threads (lines 117-118) copies `cfg` by value
into each worker. -/
def spawnWorkers (cfg : Config) : ConfigOwners :=
  { mainCopy := cfg, worker1Copy := cfg, worker2Copy := cfg }

/-- Mutation of the `HostName` field of a configuration value. -/
def setHostName (c : Config) (h : String) : Config :=
  { c with HostName := h }

/-- Worker 1 applies a mutation `f` to its own local configuration copy. -/
def worker1Mutates (o : ConfigOwners) (f : Config → Config) : ConfigOwners :=
  { o with worker1Copy := f o.worker1Copy }

/-- Worker 2 applies a mutation `f` to its own local configuration copy. -/
def worker2Mutates (o : ConfigOwners) (f : Config → Config) : ConfigOwners :=
  { o with worker2Copy := f o.worker2Copy }

/-- C8: each worker's configuration copy is independent: after worker 1
mutates its local copy arbitrarily (for example overwriting `HostName`),
worker 2's copy and the original in `main` still equal the original
configuration, and symmetrically for worker 2; the `HostName` overwrite
really lands in the mutating worker's own copy. -/
theorem C8_config_copies_independent (cfg : Config) (f : Config → Config) (hn : String) :
    ((worker1Mutates (spawnWorkers cfg) f).worker2Copy = cfg ∧
     (worker1Mutates (spawnWorkers cfg) f).mainCopy = cfg) ∧
    ((worker2Mutates (spawnWorkers cfg) f).worker1Copy = cfg ∧
     (worker2Mutates (spawnWorkers cfg) f).mainCopy = cfg) ∧
    (worker1Mutates (spawnWorkers cfg) (fun c => setHostName c hn)).worker1Copy.HostName = hn ∧
    (worker1Mutates (spawnWorkers cfg) (fun c => setHostName c hn)).worker2Copy.HostName
      = cfg.HostName :=
  ⟨⟨rfl, rfl⟩, ⟨rfl, rfl⟩, rfl, rfl⟩

end Example1
